import Mathlib

/-!
Verification of the comment service core (comment lifecycle and moderation
engine): a shallow embedding of the comment usecase, the comment repository
operations it drives, and the bad-word detector, together with theorems about
creation, threading, listing, editing, soft deletion and moderation.

The Mongo comment collection is modelled as a list of comments; the store is
the only state. Timestamps are abstract naturals passed in explicitly; the
store-assigned document ID is likewise passed in. Store calls themselves never
fail in the model (the code treats store errors as transport failures, not
domain decisions).
-/

namespace CommentService

/-! ## Data model (internal/models) -/

/-- Mongo ObjectIDs are modelled by their 24-character hex representation. -/
abbrev ObjectID := String

def isHexChar (c : Char) : Bool :=
  c.isDigit || (('a' ≤ c) && (c ≤ 'f')) || (('A' ≤ c) && (c ≤ 'F'))

/-- Model of primitive.ObjectIDFromHex: succeeds exactly on 24 hex characters. -/
def objectIDFromHex (s : String) : Option ObjectID :=
  if s.length = 24 ∧ s.toList.all isHexChar then some s else none

/-- CommentStatus is a string type in the source. -/
abbrev CommentStatus := String

def StatusPending : CommentStatus := "pending"
def StatusApproved : CommentStatus := "approved"
def StatusRejected : CommentStatus := "rejected"
def StatusSpam : CommentStatus := "spam"

structure EditRecord where
  content : String
  editedAt : Nat
  editedBy : String
deriving Repr, DecidableEq

structure Attachment where
  id : String
  kind : String
  url : String
  filename : String
  size : Int
  mimeType : String
  uploadedAt : Nat
deriving Repr, DecidableEq

structure Comment where
  id : ObjectID
  tenantID : String
  resourceType : String
  resourceID : String
  parentID : Option ObjectID
  rootID : Option ObjectID
  authorID : String
  authorName : String
  authorEmail : String
  isAnonymous : Bool
  content : String
  attachments : List Attachment
  status : CommentStatus
  moderatedBy : String
  moderatedAt : Option Nat
  rejectionReason : String
  flaggedWords : List String
  reportCount : Int
  isPinned : Bool
  pinnedBy : String
  pinnedAt : Option Nat
  isEdited : Bool
  editHistory : List EditRecord
  replyCount : Int
  likeCount : Int
  dislikeCount : Int
  ipAddress : String
  userAgent : String
  createdAt : Nat
  updatedAt : Nat
  deletedAt : Option Nat
  isDeleted : Bool
  deletedBy : String
  depth : Int
deriving Repr, DecidableEq

structure CommentSettings where
  tenantID : String
  resourceType : String
  requireApproval : Bool
  allowAnonymous : Bool
  allowReplies : Bool
  maxReplyDepth : Int
  allowReactions : Bool
  allowAttachments : Bool
  maxAttachments : Int
  maxCommentLength : Int
  commentsEnabled : Bool
  notifyOnNewComment : Bool
  notifyOnReply : Bool
  autoApproveVerified : Bool
  badWordsFilter : Bool
  customBadWords : List String
deriving Repr, DecidableEq

/-- config.ModerationConfig, the global bad-word configuration. -/
structure ModerationConfig where
  badWordsEnabled : Bool
  badWordsList : List String
deriving Repr, DecidableEq

structure CreateCommentRequest where
  tenantID : String
  resourceType : String
  resourceID : String
  parentID : String
  content : String
  authorName : String
  isAnonymous : Bool
  attachments : List Attachment
deriving Repr, DecidableEq

structure UpdateCommentRequest where
  content : String
  attachments : List Attachment
deriving Repr, DecidableEq

structure ModerateCommentRequest where
  status : CommentStatus
  rejectionReason : String
deriving Repr, DecidableEq

structure ListCommentsRequest where
  tenantID : String
  resourceType : String
  resourceID : String
  parentID : String
  status : CommentStatus
  authorID : String
  isPinned : Option Bool
  sortBy : String
  sortOrder : String
  page : Int
  pageSize : Int
  includeDeleted : Bool
deriving Repr, DecidableEq

structure ListCommentsResponse where
  comments : List Comment
  total : Int
  page : Int
  pageSize : Int
  totalPages : Int
deriving Repr, DecidableEq

/-! ## Comment repository (internal/repository/comment_repository.go) -/

/-- The comments collection. -/
abbrev CommentStore := List Comment

/-- FindOne by _id (GetByID); a missing document is nil, not an error. -/
def getByID (st : CommentStore) (id : ObjectID) : Option Comment :=
  st.find? (fun c => c.id == id)

/-- Create: set CreatedAt/UpdatedAt, insert, and receive the store-assigned ID. -/
def repoCreate (st : CommentStore) (comment : Comment) (newID : ObjectID) (now : Nat) :
    Comment × CommentStore :=
  let c := { comment with createdAt := now, updatedAt := now, id := newID }
  (c, st ++ [c])

/-- Update: set UpdatedAt and replace the document with a matching _id. -/
def repoUpdate (st : CommentStore) (comment : Comment) (now : Nat) :
    Comment × CommentStore :=
  let c := { comment with updatedAt := now }
  (c, st.map (fun x => if x.id = c.id then c else x))

/-- The per-document update of SoftDelete: set is_deleted, deleted_at,
deleted_by, updated_at when the _id matches. -/
def softDeleteF (id : ObjectID) (deletedBy : String) (now : Nat) (c : Comment) :
    Comment :=
  if c.id = id then
    { c with isDeleted := true, deletedAt := some now, deletedBy := deletedBy,
             updatedAt := now }
  else c

/-- SoftDelete: apply the update to the document with a matching _id. -/
def softDelete (st : CommentStore) (id : ObjectID) (deletedBy : String) (now : Nat) :
    CommentStore :=
  st.map (softDeleteF id deletedBy now)

/-- The per-document update of IncrementReplyCount: $inc reply_count by delta,
refresh updated_at when the _id matches. -/
def incReplyCountF (id : ObjectID) (delta : Int) (now : Nat) (c : Comment) :
    Comment :=
  if c.id = id then { c with replyCount := c.replyCount + delta, updatedAt := now }
  else c

/-- IncrementReplyCount: apply the increment to the matching document. -/
def incrementReplyCount (st : CommentStore) (id : ObjectID) (delta : Int) (now : Nat) :
    CommentStore :=
  st.map (incReplyCountF id delta now)

/-! ## Bad-word detector

The source compiles the Go regex `(?i)\b(w1|...|wn)\b` from a word list and
calls FindAllString. The model scans the text directly with the same
semantics for lists of literal words: case-insensitive match of one of the
words, delimited by word boundaries (a word character is `[0-9A-Za-z_]`),
leftmost match preferred, alternatives tried in list order, non-overlapping,
surface casing of the matched text returned. -/

def isWordChar (c : Char) : Bool := c.isAlphanum || c == '_'

def wordCharOpt : Option Char → Bool
  | some c => isWordChar c
  | none => false

/-- A word boundary sits between a word character and a non-word character
(string edges count as non-word). -/
def boundaryB (prevIsWord : Bool) (next : Option Char) : Bool :=
  prevIsWord != wordCharOpt next

/-- Case-insensitive literal match of a pattern word against the front of the
input; yields the matched surface characters and the rest of the input. -/
def splitMatch : List Char → List Char → Option (List Char × List Char)
  | [], s => some ([], s)
  | _ :: _, [] => none
  | p :: ps, c :: cs =>
      if p.toLower == c.toLower then
        match splitMatch ps cs with
        | some (m, r) => some (c :: m, r)
        | none => none
      else none

/-- Word-character class of the last matched character (for the boundary after
the match); an empty match leaves the context unchanged. -/
def lastWordness (m : List Char) (prevIsWord : Bool) : Bool :=
  match m.getLast? with
  | some c => isWordChar c
  | none => prevIsWord

/-- Try one alternative of the pattern at the current position. -/
def tryMatchWord (prevIsWord : Bool) (w : List Char) (s : List Char) :
    Option (List Char × List Char) :=
  match w with
  | [] => if boundaryB prevIsWord s.head? then some ([], s) else none
  | _ :: _ =>
      if boundaryB prevIsWord s.head? then
        match splitMatch w s with
        | some (m, r) =>
            if boundaryB (lastWordness m prevIsWord) r.head? then some (m, r) else none
        | none => none
      else none

/-- Try the alternatives in list order at the current position. -/
def tryWords (prevIsWord : Bool) (ws : List (List Char)) (s : List Char) :
    Option (List Char × List Char) :=
  match ws with
  | [] => none
  | w :: rest =>
      match tryMatchWord prevIsWord w s with
      | some res => some res
      | none => tryWords prevIsWord rest s

/-- Left-to-right non-overlapping scan; the fuel bounds the recursion
(input length + 1 always suffices, one unit per position visited). -/
def scanAux (ws : List (List Char)) : Nat → Bool → List Char → List (List Char)
  | 0, _, _ => []
  | Nat.succ fuel, prevIsWord, s =>
      match tryWords prevIsWord ws s with
      | some (m, r) =>
          match m with
          | [] =>
              match s with
              | [] => [[]]
              | c :: cs => [] :: scanAux ws fuel (isWordChar c) cs
          | _ :: _ => m :: scanAux ws fuel (lastWordness m prevIsWord) r
      | none =>
          match s with
          | [] => []
          | c :: cs => scanAux ws fuel (isWordChar c) cs

/-- Model of FindAllString for the word-alternation pattern. -/
def findAllString (words : List String) (content : String) : List String :=
  (scanAux (words.map String.toList) (content.toList.length + 1) false content.toList).map
    (fun m => String.mk m)

/-- The precompiled global matcher built in NewCommentUsecase: present only when
bad-word filtering is enabled and the global list is nonempty. -/
def badWordsRegex (cfg : ModerationConfig) : Option (List String) :=
  if cfg.badWordsEnabled = true ∧ cfg.badWordsList.length > 0 then
    some cfg.badWordsList
  else none

def toLowerStr (s : String) : String := String.mk (s.toList.map Char.toLower)

/-- The duplicate-removal loop of checkBadWords: keep only the first occurrence
of each case-folded word, in input order, with its surface casing. -/
def dedupAux (seen : List String) : List String → List String
  | [] => []
  | w :: rest =>
      let lower := toLowerStr w
      if lower ∈ seen then dedupAux seen rest
      else w :: dedupAux (lower :: seen) rest

/-- The matches contributed by the global word list. -/
def globalMatches (cfg : ModerationConfig) (content : String) : List String :=
  match badWordsRegex cfg with
  | some ws => findAllString ws content
  | none => []

/-- The matches contributed by the per-tenant custom word list. -/
def customMatches (customBadWords : List String) (content : String) : List String :=
  if customBadWords.length > 0 then findAllString customBadWords content else []

/-- checkBadWords: global matches, then custom matches, then case-fold dedup. -/
def checkBadWords (cfg : ModerationConfig) (content : String)
    (customBadWords : List String) : List String :=
  let flagged := globalMatches cfg content ++ customMatches customBadWords content
  dedupAux [] flagged

/-! ## Comment usecase (internal/usecase/comment_usecase.go)

Settings resolution (settingsRepo.GetOrCreate) never fails logically — it
always materializes a record — so each operation takes the resolved settings
as an argument. -/

inductive CreateErr where
  | commentsDisabled
  | anonymousNotAllowed
  | contentTooLong
  | invalidParentID
  | parentNotFound
  | repliesNotAllowed
  | maxDepthExceeded
deriving Repr, DecidableEq

/-- The tail of CreateComment after the parent/threading block: bad-word scan,
initial status, author identity, persistence, parent reply-count bump. -/
def createCommentFinish (cfg : ModerationConfig) (settings : CommentSettings)
    (req : CreateCommentRequest)
    (authorID authorName authorEmail ipAddress userAgent : String)
    (st : CommentStore) (newID : ObjectID) (now : Nat)
    (parentID rootID : Option ObjectID) (depth : Int) : Comment × CommentStore :=
  let flaggedWords := checkBadWords cfg req.content settings.customBadWords
  -- status := pending; if !RequireApproval { approved } else if flagged { pending }
  let status :=
    if settings.requireApproval = false then StatusApproved
    else if flaggedWords.length > 0 then StatusPending
    else StatusPending
  let displayName := if req.authorName ≠ "" then req.authorName else authorName
  let displayName := if req.isAnonymous = true then "Anonymous" else displayName
  let authorEmail := if req.isAnonymous = true then "" else authorEmail
  let comment : Comment :=
    { id := "", tenantID := req.tenantID, resourceType := req.resourceType,
      resourceID := req.resourceID, parentID := parentID, rootID := rootID,
      authorID := authorID, authorName := displayName, authorEmail := authorEmail,
      isAnonymous := req.isAnonymous, content := req.content,
      attachments := req.attachments, status := status, moderatedBy := "",
      moderatedAt := none, rejectionReason := "", flaggedWords := flaggedWords,
      reportCount := 0, isPinned := false, pinnedBy := "", pinnedAt := none,
      isEdited := false, editHistory := [], replyCount := 0, likeCount := 0,
      dislikeCount := 0, ipAddress := ipAddress, userAgent := userAgent,
      createdAt := 0, updatedAt := 0, deletedAt := none, isDeleted := false,
      deletedBy := "", depth := depth }
  let (created, st1) := repoCreate st comment newID now
  let st2 :=
    match parentID with
    | some pid => incrementReplyCount st1 pid 1 now
    | none => st1
  (created, st2)

/-- CreateComment. -/
def createComment (cfg : ModerationConfig) (settings : CommentSettings)
    (req : CreateCommentRequest)
    (authorID authorName authorEmail ipAddress userAgent : String)
    (st : CommentStore) (newID : ObjectID) (now : Nat) :
    Except CreateErr (Comment × CommentStore) :=
  if settings.commentsEnabled = false then .error .commentsDisabled
  else if req.isAnonymous = true ∧ settings.allowAnonymous = false then
    .error .anonymousNotAllowed
  else if (req.content.length : Int) > settings.maxCommentLength then
    .error .contentTooLong
  else if req.parentID = "" then
    .ok (createCommentFinish cfg settings req authorID authorName authorEmail
          ipAddress userAgent st newID now none none 0)
  else
    match objectIDFromHex req.parentID with
    | none => .error .invalidParentID
    | some pid =>
        match getByID st pid with
        | none => .error .parentNotFound
        | some parent =>
            if settings.allowReplies = false then .error .repliesNotAllowed
            else if parent.depth + 1 > settings.maxReplyDepth then
              .error .maxDepthExceeded
            else
              let rootID :=
                match parent.rootID with
                | some r => some r
                | none => some pid
              .ok (createCommentFinish cfg settings req authorID authorName
                    authorEmail ipAddress userAgent st newID now (some pid) rootID
                    (parent.depth + 1))

inductive UpdateErr where
  | invalidID
  | notFound
  | forbidden
  | cannotEditDeleted
  | contentTooLong
deriving Repr, DecidableEq

/-- UpdateComment. -/
def updateComment (cfg : ModerationConfig) (settings : CommentSettings)
    (id : String) (req : UpdateCommentRequest) (userID : String) (isAdmin : Bool)
    (st : CommentStore) (now : Nat) : Except UpdateErr (Comment × CommentStore) :=
  match objectIDFromHex id with
  | none => .error .invalidID
  | some oid =>
      match getByID st oid with
      | none => .error .notFound
      | some comment =>
          if comment.authorID ≠ userID ∧ isAdmin = false then .error .forbidden
          else if comment.isDeleted = true then .error .cannotEditDeleted
          else if (req.content.length : Int) > settings.maxCommentLength then
            .error .contentTooLong
          else
            let editRecord : EditRecord :=
              { content := comment.content, editedAt := now, editedBy := userID }
            let flaggedWords := checkBadWords cfg req.content settings.customBadWords
            let updated :=
              { comment with
                  editHistory := comment.editHistory ++ [editRecord],
                  content := req.content,
                  attachments := req.attachments,
                  isEdited := true,
                  flaggedWords := flaggedWords }
            let updated :=
              if flaggedWords.length > 0 ∧ settings.requireApproval = true then
                { updated with status := StatusPending }
              else updated
            .ok (repoUpdate st updated now)

inductive DeleteErr where
  | invalidID
  | notFound
  | forbidden
deriving Repr, DecidableEq

/-- DeleteComment: soft delete plus best-effort parent reply-count decrement. -/
def deleteComment (id : String) (userID : String) (isAdmin : Bool)
    (st : CommentStore) (now : Nat) : Except DeleteErr CommentStore :=
  match objectIDFromHex id with
  | none => .error .invalidID
  | some oid =>
      match getByID st oid with
      | none => .error .notFound
      | some comment =>
          if comment.authorID ≠ userID ∧ isAdmin = false then .error .forbidden
          else
            let st1 := softDelete st oid userID now
            let st2 :=
              match comment.parentID with
              | some pid => incrementReplyCount st1 pid (-1) now
              | none => st1
            .ok st2

inductive ModerateErr where
  | invalidID
  | notFound
deriving Repr, DecidableEq

/-- ModerateComment. -/
def moderateComment (id : String) (req : ModerateCommentRequest)
    (moderatorID : String) (st : CommentStore) (now : Nat) :
    Except ModerateErr (Comment × CommentStore) :=
  match objectIDFromHex id with
  | none => .error .invalidID
  | some oid =>
      match getByID st oid with
      | none => .error .notFound
      | some comment =>
          let updated :=
            { comment with status := req.status, moderatedBy := moderatorID,
                           moderatedAt := some now }
          let updated :=
            if req.status = StatusRejected then
              { updated with rejectionReason := req.rejectionReason }
            else updated
          .ok (repoUpdate st updated now)

/-! ## Listing (repository List + usecase ListComments) -/

/-- The Mongo filter built by the repository List. -/
def listFilter (req : ListCommentsRequest) (c : Comment) : Bool :=
  (req.tenantID == "" || c.tenantID == req.tenantID) &&
  (req.resourceType == "" || c.resourceType == req.resourceType) &&
  (req.resourceID == "" || c.resourceID == req.resourceID) &&
  (if req.parentID ≠ "" then
     match objectIDFromHex req.parentID with
     | some pid => c.parentID == some pid
     | none => true
   else c.parentID == none) &&
  (req.status == "" || c.status == req.status) &&
  (req.authorID == "" || c.authorID == req.authorID) &&
  (match req.isPinned with
   | some b => c.isPinned == b
   | none => true) &&
  (req.includeDeleted || c.isDeleted == false)

/-- The validated sort field: created_at unless a whitelisted field is given. -/
def sortFieldOf (req : ListCommentsRequest) : String :=
  if req.sortBy = "created_at" ∨ req.sortBy = "like_count" ∨ req.sortBy = "reply_count"
  then req.sortBy else "created_at"

def sortKey (field : String) (c : Comment) : Int :=
  if field = "like_count" then c.likeCount
  else if field = "reply_count" then c.replyCount
  else (c.createdAt : Int)

/-- Sort order of List: is_pinned descending first, then the selected field in
the requested direction (descending unless sortOrder is asc). -/
def sortLE (req : ListCommentsRequest) (a b : Comment) : Bool :=
  if a.isPinned ≠ b.isPinned then a.isPinned
  else if req.sortOrder = "asc" then
    decide (sortKey (sortFieldOf req) a ≤ sortKey (sortFieldOf req) b)
  else
    decide (sortKey (sortFieldOf req) b ≤ sortKey (sortFieldOf req) a)

def insertSorted (le : Comment → Comment → Bool) (c : Comment) :
    List Comment → List Comment
  | [] => [c]
  | x :: xs => if le c x then c :: x :: xs else x :: insertSorted le c xs

def sortComments (le : Comment → Comment → Bool) : List Comment → List Comment
  | [] => []
  | x :: xs => insertSorted le x (sortComments le xs)

/-- Repository List: filter, count, clamp page/pageSize, sort, skip+limit.
The request is received by value, so the clamping is invisible to the caller. -/
def repoList (st : CommentStore) (req : ListCommentsRequest) :
    List Comment × Int :=
  let matched := st.filter (listFilter req)
  let total : Int := matched.length
  let page := if req.page < 1 then 1 else req.page
  let pageSize := if req.pageSize < 1 ∨ req.pageSize > 100 then 20 else req.pageSize
  let sorted := sortComments (sortLE req) matched
  let pageItems := (sorted.drop ((page - 1) * pageSize).toNat).take pageSize.toNat
  (pageItems, total)

/-- ListComments: force the approved-only filter for non-admins with no explicit
status, delegate to the repository, then compute the page metadata (from the
caller-side request values, which the repository's clamping did not change). -/
def listComments (st : CommentStore) (req : ListCommentsRequest) (isAdmin : Bool) :
    ListCommentsResponse :=
  let req := if isAdmin = false ∧ req.status = "" then
               { req with status := StatusApproved }
             else req
  let res := repoList st req
  let pageSize := if req.pageSize < 1 then 20 else req.pageSize
  let totalPages := res.2 / pageSize + (if res.2 % pageSize > 0 then 1 else 0)
  { comments := res.1, total := res.2, page := req.page, pageSize := pageSize,
    totalPages := totalPages }

deriving instance DecidableEq for Except

/-! ## Concrete fixtures used by counterexamples and witnesses -/

def defaultComment : Comment :=
  { id := "", tenantID := "", resourceType := "", resourceID := "",
    parentID := none, rootID := none, authorID := "", authorName := "",
    authorEmail := "", isAnonymous := false, content := "", attachments := [],
    status := StatusApproved, moderatedBy := "", moderatedAt := none,
    rejectionReason := "", flaggedWords := [], reportCount := 0,
    isPinned := false, pinnedBy := "", pinnedAt := none, isEdited := false,
    editHistory := [], replyCount := 0, likeCount := 0, dislikeCount := 0,
    ipAddress := "", userAgent := "", createdAt := 0, updatedAt := 0,
    deletedAt := none, isDeleted := false, deletedBy := "", depth := 0 }

def defaultSettings : CommentSettings :=
  { tenantID := "t1", resourceType := "product", requireApproval := true,
    allowAnonymous := false, allowReplies := true, maxReplyDepth := 5,
    allowReactions := true, allowAttachments := true, maxAttachments := 3,
    maxCommentLength := 5000, commentsEnabled := true,
    notifyOnNewComment := true, notifyOnReply := true,
    autoApproveVerified := false, badWordsFilter := true, customBadWords := [] }

def defaultCreateReq : CreateCommentRequest :=
  { tenantID := "t1", resourceType := "product", resourceID := "p1",
    parentID := "", content := "hello", authorName := "", isAnonymous := false,
    attachments := [] }

def defaultListReq : ListCommentsRequest :=
  { tenantID := "", resourceType := "", resourceID := "", parentID := "",
    status := "", authorID := "", isPinned := none, sortBy := "",
    sortOrder := "", page := 1, pageSize := 20, includeDeleted := false }

/-- A moderation config with bad-word filtering off. -/
def offCfg : ModerationConfig := { badWordsEnabled := false, badWordsList := [] }

def hexA : String := "aaaaaaaaaaaaaaaaaaaaaaaa"
def hexB : String := "bbbbbbbbbbbbbbbbbbbbbbbb"
def hexC : String := "cccccccccccccccccccccccc"

/-- Failing input of C1: approval not required, global list flags the content. -/
def c1Cfg : ModerationConfig := { badWordsEnabled := true, badWordsList := ["bad"] }

def c1Settings : CommentSettings := { defaultSettings with requireApproval := false }

def c1Req : CreateCommentRequest := { defaultCreateReq with content := "bad" }

/-- Counterexample input of C2: the reply would exceed the max depth, but its
content also exceeds the length limit, which is checked first. -/
def c2Settings : CommentSettings :=
  { defaultSettings with maxReplyDepth := 0, maxCommentLength := 3 }

def c2Parent : Comment := { defaultComment with id := hexA, depth := 0 }

def c2Req : CreateCommentRequest :=
  { defaultCreateReq with parentID := hexA, content := "oops" }

/-- Failing input of C4: requested page size 101, 21 matching comments. -/
def c4Req : ListCommentsRequest := { defaultListReq with pageSize := 101 }

def c4Store : CommentStore := List.replicate 21 defaultComment

/-- Counterexample input of C7: a comment that already carries a rejection
reason, subsequently moderated to approved. -/
def c7Comment : Comment :=
  { defaultComment with
      id := hexA, status := StatusRejected,
      rejectionReason := "off-topic", authorID := "u1" }

def c7Req : ModerateCommentRequest :=
  { status := StatusApproved, rejectionReason := "" }

/-- Witness fixtures for C2: a successful reply under a parent that already
has a root, and a depth-exceeding reply with short content. -/
def c2wParent : Comment :=
  { defaultComment with
      id := hexA, depth := 2, rootID := some hexB, authorID := "u9" }

def c2wReq : CreateCommentRequest :=
  { defaultCreateReq with parentID := hexA, content := "re" }

def c2wRes : Comment × CommentStore :=
  (createComment offCfg defaultSettings c2wReq "u1" "User" "e" "ip" "ua"
    [c2wParent] hexC 3).toOption.getD (defaultComment, [])

def c2dReq : CreateCommentRequest :=
  { defaultCreateReq with parentID := hexA, content := "re" }

/-- Witness fixtures for C3: one approved and one pending root comment. -/
def c3ApprovedC : Comment := { defaultComment with id := hexA }

def c3PendingC : Comment :=
  { defaultComment with id := hexB, status := StatusPending }

def c3Store : CommentStore := [c3ApprovedC, c3PendingC]

/-- Witness fixtures for C5: the author edits their own comment. -/
def c5Comment : Comment :=
  { defaultComment with id := hexA, authorID := "u1", content := "old text" }

def c5UReq : UpdateCommentRequest := { content := "new text", attachments := [] }

def c5Res : Comment × CommentStore :=
  (updateComment offCfg defaultSettings hexA c5UReq "u1" false [c5Comment]
    7).toOption.getD (defaultComment, [])

/-- Witness fixtures for C6 and C10: a parent with five replies counted, and a
reply of it deleted by its author. -/
def c6Parent : Comment :=
  { defaultComment with id := hexA, replyCount := 5, authorID := "pu" }

def c6Child : Comment :=
  { defaultComment with
      id := hexB, parentID := some hexA, authorID := "u1", depth := 1 }

def c6Res : CommentStore :=
  (deleteComment hexB "u1" false [c6Parent, c6Child] 11).toOption.getD []

/-- Witness fixture for C7: a comment moderated to rejected with a reason. -/
def c7wReq : ModerateCommentRequest :=
  { status := StatusRejected, rejectionReason := "abuse" }

def c7wRes : Comment × CommentStore :=
  (moderateComment hexA c7wReq "mod1" [c7Comment] 50).toOption.getD
    (defaultComment, [])

/-! ## Claim theorems -/

/-- C1: the claim says a comment whose content contains a configured bad word is
never created with status approved, and that the initial status is approved only
when RequireApproval is false AND the scan flagged nothing. The code auto-
approves whenever RequireApproval is false: the "force pending" branch sits in
the else of that test and can never change the outcome. At the failing input the
scan flags the word, yet the created comment is approved. -/
theorem C1_flagged_comment_auto_approved :
    (createComment c1Cfg c1Settings c1Req "u1" "User One" "u1@x" "1.2.3.4" "ua"
        [] hexC 100).map (fun r => (r.1.status, r.1.flaggedWords)) =
      .ok (StatusApproved, ["bad"]) ∧
    c1Settings.requireApproval = false ∧
    checkBadWords c1Cfg c1Req.content c1Settings.customBadWords = ["bad"] := by
  decide

/-- C2 counterexample: a reply whose computed depth (1) exceeds MaxReplyDepth
(0) does not fail with maxDepthExceeded when the content is over the length
limit: the length check runs first and wins, refuting "regardless of content". -/
theorem C2_depth_error_not_regardless_of_content :
    createComment offCfg c2Settings c2Req "u1" "User" "" "ip" "ua" [c2Parent]
      hexC 9 = .error .contentTooLong ∧
    CreateErr.contentTooLong ≠ CreateErr.maxDepthExceeded ∧
    objectIDFromHex c2Req.parentID = some c2Parent.id ∧
    getByID [c2Parent] c2Parent.id = some c2Parent ∧
    c2Parent.depth + 1 > c2Settings.maxReplyDepth := by
  decide

/-- C4: the claim says TotalPages is computed with the same effective page size
used to fetch the page. The repository clamps the page size (101 becomes 20 and
20 items are fetched), but ListComments recomputes the page size from the raw
request (101), so it reports TotalPages = 21/101 rounded up = 1 instead of
ceil(21/20) = 2, and echoes page size 101. -/
theorem C4_totalPages_uses_unclamped_pageSize :
    (listComments c4Store c4Req true).total = 21 ∧
    (listComments c4Store c4Req true).comments.length = 20 ∧
    (listComments c4Store c4Req true).pageSize = 101 ∧
    (listComments c4Store c4Req true).totalPages = 1 ∧
    (21 : Int) / 20 + 1 = 2 := by
  decide

/-- C7 counterexample: moderating to approved does not clear a previously
stored rejection reason, so a comment moderated to approved can still carry
one, refuting the claim's parenthetical. -/
theorem C7_approved_comment_keeps_old_rejection_reason :
    (moderateComment hexA c7Req "mod1" [c7Comment] 50).map
      (fun r => (r.1.status, r.1.rejectionReason)) =
      .ok (StatusApproved, "off-topic") ∧
    ("off-topic" : String) ≠ "" := by
  decide

/-! ## Helper lemmas: duplicate removal (checkBadWords) -/

theorem mem_of_mem_dedupAux (l : List String) (seen : List String) (w : String)
    (h : w ∈ dedupAux seen l) : w ∈ l := by
  induction l generalizing seen with
  | nil => simp [dedupAux] at h
  | cons x rest ih =>
    simp only [dedupAux] at h
    split at h
    · exact List.mem_cons_of_mem x (ih _ h)
    · rcases List.mem_cons.mp h with h' | h'
      · exact h' ▸ List.mem_cons_self x rest
      · exact List.mem_cons_of_mem x (ih _ h')

theorem dedupAux_complete (l : List String) (seen : List String) (m : String)
    (hm : m ∈ l) (hs : toLowerStr m ∉ seen) :
    ∃ w ∈ dedupAux seen l, toLowerStr w = toLowerStr m := by
  induction l generalizing seen with
  | nil => cases hm
  | cons x rest ih =>
    simp only [dedupAux]
    rcases List.mem_cons.mp hm with he | hm'
    · subst he
      split
      · exact absurd (by assumption) hs
      · exact ⟨m, List.mem_cons_self _ _, rfl⟩
    · split
      · exact ih _ hm' hs
      · by_cases hx : toLowerStr m = toLowerStr x
        · exact ⟨x, List.mem_cons_self _ _, hx.symm⟩
        · have hs' : toLowerStr m ∉ toLowerStr x :: seen := by
            simp [hs, hx]
          obtain ⟨w, hw, hwe⟩ := ih _ hm' hs'
          exact ⟨w, List.mem_cons_of_mem x hw, hwe⟩

theorem dedupAux_not_seen (l : List String) (seen : List String) (w : String)
    (h : w ∈ dedupAux seen l) : toLowerStr w ∉ seen := by
  induction l generalizing seen with
  | nil => simp [dedupAux] at h
  | cons x rest ih =>
    simp only [dedupAux] at h
    split at h
    · exact ih _ h
    · rcases List.mem_cons.mp h with rfl | h'
      · assumption
      · have := ih _ h'
        intro hc
        exact this (List.mem_cons_of_mem _ hc)

theorem dedupAux_pairwise (l : List String) (seen : List String) :
    (dedupAux seen l).Pairwise (fun a b => toLowerStr a ≠ toLowerStr b) := by
  induction l generalizing seen with
  | nil => simp [dedupAux]
  | cons x rest ih =>
    simp only [dedupAux]
    split
    · exact ih _
    · refine List.Pairwise.cons ?_ (ih _)
      intro b hb
      have := dedupAux_not_seen rest (toLowerStr x :: seen) b hb
      intro hc
      exact this (hc ▸ List.mem_cons_self _ _)

theorem dedupAux_first (l : List String) (seen : List String) (w : String)
    (h : w ∈ dedupAux seen l) :
    l.find? (fun m => toLowerStr m == toLowerStr w) = some w := by
  induction l generalizing seen with
  | nil => simp [dedupAux] at h
  | cons x rest ih =>
    simp only [dedupAux] at h
    split at h
    · have hns := dedupAux_not_seen rest seen w h
      have hxw : toLowerStr x ≠ toLowerStr w := by
        intro hc
        exact hns (hc ▸ (by assumption))
      simp only [List.find?]
      rw [show (toLowerStr x == toLowerStr w) = false by simpa using hxw]
      exact ih _ h
    · rcases List.mem_cons.mp h with rfl | h'
      · simp [List.find?]
      · have hns := dedupAux_not_seen rest (toLowerStr x :: seen) w h'
        have hxw : toLowerStr x ≠ toLowerStr w := by
          intro hc
          exact hns (hc ▸ List.mem_cons_self _ _)
        simp only [List.find?]
        rw [show (toLowerStr x == toLowerStr w) = false by simpa using hxw]
        exact ih _ h'

/-! ## Helper lemmas: creation -/

theorem createComment_ok_inv (cfg : ModerationConfig) (settings : CommentSettings)
    (req : CreateCommentRequest) (a an ae ip ua : String) (st : CommentStore)
    (newID : ObjectID) (now : Nat) (c : Comment) (st' : CommentStore)
    (h : createComment cfg settings req a an ae ip ua st newID now = .ok (c, st')) :
    (req.parentID = "" ∧
      (c, st') = createCommentFinish cfg settings req a an ae ip ua st newID now
        none none 0) ∨
    (∃ pid parent, req.parentID ≠ "" ∧
      objectIDFromHex req.parentID = some pid ∧
      getByID st pid = some parent ∧
      settings.allowReplies = true ∧
      ¬(parent.depth + 1 > settings.maxReplyDepth) ∧
      (c, st') = createCommentFinish cfg settings req a an ae ip ua st newID now
        (some pid)
        (match parent.rootID with
         | some r => some r
         | none => some pid)
        (parent.depth + 1)) := by
  by_cases h1 : settings.commentsEnabled = false
  · simp [createComment, h1] at h
  by_cases h2 : req.isAnonymous = true ∧ settings.allowAnonymous = false
  · simp [createComment, h1, h2] at h
  by_cases h3 : (req.content.length : Int) > settings.maxCommentLength
  · simp [createComment, h1, h2, h3] at h
  by_cases h4 : req.parentID = ""
  · left
    refine ⟨h4, ?_⟩
    simp [createComment, h1, h2, h3, h4] at h
    exact h.symm
  cases hpid : objectIDFromHex req.parentID with
  | none => simp [createComment, h1, h2, h3, h4, hpid] at h
  | some pid =>
    cases hparent : getByID st pid with
    | none => simp [createComment, h1, h2, h3, h4, hpid, hparent] at h
    | some parent =>
      by_cases h5 : settings.allowReplies = false
      · simp [createComment, h1, h2, h3, h4, hpid, hparent, h5] at h
      by_cases h6 : parent.depth + 1 > settings.maxReplyDepth
      · simp [createComment, h1, h2, h3, h4, hpid, hparent, h5, h6] at h
      right
      refine ⟨pid, parent, h4, rfl, hparent, ?_, h6, ?_⟩
      · simpa using h5
      · simp [createComment, h1, h2, h3, h4, hpid, hparent, h5, h6] at h
        exact h.symm

/-! ## Helper lemmas: listing -/

theorem mem_insertSorted (le : Comment → Comment → Bool) (c x : Comment)
    (l : List Comment) : x ∈ insertSorted le c l ↔ x = c ∨ x ∈ l := by
  induction l with
  | nil => simp [insertSorted]
  | cons y ys ih =>
    simp only [insertSorted]
    split
    · simp [List.mem_cons]
    · simp only [List.mem_cons, ih]
      tauto

theorem mem_sortComments (le : Comment → Comment → Bool) (l : List Comment)
    (x : Comment) : x ∈ sortComments le l ↔ x ∈ l := by
  induction l with
  | nil => simp [sortComments]
  | cons y ys ih =>
    simp [sortComments, mem_insertSorted, ih]

theorem mem_repoList (st : CommentStore) (req : ListCommentsRequest) (c : Comment)
    (h : c ∈ (repoList st req).1) : listFilter req c = true := by
  unfold repoList at h
  simp only at h
  have h1 := List.mem_of_mem_take h
  have h2 := List.mem_of_mem_drop h1
  rw [mem_sortComments] at h2
  exact (List.mem_filter.mp h2).2

theorem listFilter_status_blind (req : ListCommentsRequest)
    (h : req.status = "") (g : String → String) (c : Comment) :
    listFilter req { c with status := g c.status } = listFilter req c := by
  cases c
  simp [listFilter, h]

theorem sortLE_status_blind (req : ListCommentsRequest) (g : String → String)
    (a b : Comment) :
    sortLE req { a with status := g a.status } { b with status := g b.status } =
      sortLE req a b := by
  cases a
  cases b
  rfl

theorem insertSorted_map (f : Comment → Comment) (le : Comment → Comment → Bool)
    (hle : ∀ a b, le (f a) (f b) = le a b) (c : Comment) (l : List Comment) :
    insertSorted le (f c) (l.map f) = (insertSorted le c l).map f := by
  induction l with
  | nil => simp [insertSorted]
  | cons y ys ih =>
    simp only [List.map_cons, insertSorted, hle]
    split
    · simp
    · simp [ih]

theorem sortComments_map (f : Comment → Comment) (le : Comment → Comment → Bool)
    (hle : ∀ a b, le (f a) (f b) = le a b) (l : List Comment) :
    sortComments le (l.map f) = (sortComments le l).map f := by
  induction l with
  | nil => simp [sortComments]
  | cons y ys ih =>
    simp only [List.map_cons, sortComments, ih]
    exact insertSorted_map f le hle y (sortComments le ys)

theorem repoList_status_blind (st : CommentStore) (req : ListCommentsRequest)
    (h : req.status = "") (g : String → String) :
    (repoList (st.map (fun c => { c with status := g c.status })) req).1 =
      ((repoList st req).1).map (fun c => { c with status := g c.status }) ∧
    (repoList (st.map (fun c => { c with status := g c.status })) req).2 =
      (repoList st req).2 := by
  have hfilter : (st.map (fun c => { c with status := g c.status })).filter
      (listFilter req) =
      (st.filter (listFilter req)).map (fun c => { c with status := g c.status }) := by
    rw [List.filter_map]
    congr 1
    apply List.filter_congr
    intro x _
    exact listFilter_status_blind req h g x
  have hsort :
      sortComments (sortLE req)
        ((st.filter (listFilter req)).map (fun c => { c with status := g c.status })) =
      (sortComments (sortLE req) (st.filter (listFilter req))).map
        (fun c => { c with status := g c.status }) :=
    sortComments_map _ _ (fun a b => sortLE_status_blind req g a b) _
  constructor
  · simp only [repoList, hfilter, hsort, List.length_map]
    rw [← List.map_drop, ← List.map_take]
  · simp only [repoList, hfilter, List.length_map]

theorem listComments_comments (st : CommentStore) (req : ListCommentsRequest)
    (isAdmin : Bool) :
    (listComments st req isAdmin).comments =
      (repoList st (if isAdmin = false ∧ req.status = "" then
        { req with status := StatusApproved } else req)).1 := rfl

theorem listComments_total (st : CommentStore) (req : ListCommentsRequest)
    (isAdmin : Bool) :
    (listComments st req isAdmin).total =
      (repoList st (if isAdmin = false ∧ req.status = "" then
        { req with status := StatusApproved } else req)).2 := rfl

/-! ## Helper lemmas: deletion -/

theorem softDeleteF_id (oid : ObjectID) (u : String) (now : Nat) (c : Comment) :
    (softDeleteF oid u now c).id = c.id := by
  unfold softDeleteF
  split <;> rfl

theorem softDeleteF_authorID (oid : ObjectID) (u : String) (now : Nat)
    (c : Comment) : (softDeleteF oid u now c).authorID = c.authorID := by
  unfold softDeleteF
  split <;> rfl

theorem softDeleteF_parentID (oid : ObjectID) (u : String) (now : Nat)
    (c : Comment) : (softDeleteF oid u now c).parentID = c.parentID := by
  unfold softDeleteF
  split <;> rfl

theorem softDeleteF_replyCount (oid : ObjectID) (u : String) (now : Nat)
    (c : Comment) : (softDeleteF oid u now c).replyCount = c.replyCount := by
  unfold softDeleteF
  split <;> rfl

theorem incReplyCountF_id (oid : ObjectID) (d : Int) (now : Nat) (c : Comment) :
    (incReplyCountF oid d now c).id = c.id := by
  unfold incReplyCountF
  split <;> rfl

theorem incReplyCountF_authorID (oid : ObjectID) (d : Int) (now : Nat)
    (c : Comment) : (incReplyCountF oid d now c).authorID = c.authorID := by
  unfold incReplyCountF
  split <;> rfl

theorem incReplyCountF_parentID (oid : ObjectID) (d : Int) (now : Nat)
    (c : Comment) : (incReplyCountF oid d now c).parentID = c.parentID := by
  unfold incReplyCountF
  split <;> rfl

theorem incReplyCountF_replyCount (oid : ObjectID) (d : Int) (now : Nat)
    (c : Comment) :
    (incReplyCountF oid d now c).replyCount =
      if c.id = oid then c.replyCount + d else c.replyCount := by
  unfold incReplyCountF
  split <;> rfl

theorem getByID_map (f : Comment → Comment) (hf : ∀ c, (f c).id = c.id)
    (st : CommentStore) (oid : ObjectID) :
    getByID (st.map f) oid = (getByID st oid).map f := by
  induction st with
  | nil => rfl
  | cons c cs ih =>
    simp only [getByID, List.map_cons, List.find?, hf c] at *
    cases hc : (c.id == oid) <;> simp [hc, ih]

theorem deleteComment_ok_inv_root (id userID : String) (isAdmin : Bool)
    (st : CommentStore) (now : Nat) (oid : ObjectID) (comment : Comment)
    (st' : CommentStore)
    (h1 : objectIDFromHex id = some oid)
    (h2 : getByID st oid = some comment)
    (hpar : comment.parentID = none)
    (h3 : deleteComment id userID isAdmin st now = .ok st') :
    st' = softDelete st oid userID now := by
  unfold deleteComment at h3
  simp only [h1, h2, hpar] at h3
  split_ifs at h3 with ha
  injection h3 with h4
  exact h4.symm

theorem deleteComment_ok_inv_reply (id userID : String) (isAdmin : Bool)
    (st : CommentStore) (now : Nat) (oid : ObjectID) (comment : Comment)
    (pid : ObjectID) (st' : CommentStore)
    (h1 : objectIDFromHex id = some oid)
    (h2 : getByID st oid = some comment)
    (hpar : comment.parentID = some pid)
    (h3 : deleteComment id userID isAdmin st now = .ok st') :
    st' = incrementReplyCount (softDelete st oid userID now) pid (-1) now := by
  unfold deleteComment at h3
  simp only [h1, h2, hpar] at h3
  split_ifs at h3 with ha
  injection h3 with h4
  exact h4.symm

theorem deleteComment_ok_authorized (id userID : String) (isAdmin : Bool)
    (st : CommentStore) (now : Nat) (oid : ObjectID) (comment : Comment)
    (st' : CommentStore)
    (h1 : objectIDFromHex id = some oid)
    (h2 : getByID st oid = some comment)
    (h3 : deleteComment id userID isAdmin st now = .ok st') :
    comment.authorID = userID ∨ isAdmin = true := by
  unfold deleteComment at h3
  simp only [h1, h2] at h3
  split_ifs at h3 with ha
  by_cases hA : comment.authorID = userID
  · exact Or.inl hA
  · cases hI : isAdmin with
    | true => exact Or.inr rfl
    | false => exact absurd ⟨hA, hI⟩ ha

theorem deleteComment_ok_of (id userID : String) (isAdmin : Bool)
    (st : CommentStore) (now : Nat) (oid : ObjectID) (comment : Comment)
    (h1 : objectIDFromHex id = some oid)
    (h2 : getByID st oid = some comment)
    (h3 : comment.authorID = userID ∨ isAdmin = true) :
    deleteComment id userID isAdmin st now = .ok
      (match comment.parentID with
       | some pid => incrementReplyCount (softDelete st oid userID now) pid (-1) now
       | none => softDelete st oid userID now) := by
  unfold deleteComment
  simp only [h1, h2]
  rw [if_neg ?_]
  intro hand
  rcases h3 with h3 | h3
  · exact hand.1 h3
  · rw [h3] at hand
    cases hand.2

/-- C2 (amended): for every successful CreateComment, no parentID gives depth 0
and no rootID; a parentID whose parent exists gives depth = parent.depth + 1
and rootID = parent's rootID when set, else the parent's own ID. Creation fails
with MaxDepthExceeded whenever the earlier validations pass (comments enabled,
anonymity allowed, content within the length limit, parent found, replies
allowed) and the computed depth exceeds MaxReplyDepth — regardless of bad
words in the content (the original "regardless of content" fails: over-long
content is rejected as ContentTooLong before the depth check). -/
theorem C2_create_threading_depth (cfg : ModerationConfig)
    (settings : CommentSettings) (req : CreateCommentRequest)
    (a an ae ip ua : String) (st : CommentStore) (newID : ObjectID) (now : Nat) :
    (∀ c st',
      createComment cfg settings req a an ae ip ua st newID now = .ok (c, st') →
      ((req.parentID = "" → c.depth = 0 ∧ c.rootID = none) ∧
       (∀ pid parent, objectIDFromHex req.parentID = some pid →
          getByID st pid = some parent →
          c.depth = parent.depth + 1 ∧
          c.rootID = some (parent.rootID.getD pid)))) ∧
    (∀ pid parent,
       settings.commentsEnabled = true →
       ¬(req.isAnonymous = true ∧ settings.allowAnonymous = false) →
       (req.content.length : Int) ≤ settings.maxCommentLength →
       req.parentID ≠ "" →
       objectIDFromHex req.parentID = some pid →
       getByID st pid = some parent →
       settings.allowReplies = true →
       parent.depth + 1 > settings.maxReplyDepth →
       createComment cfg settings req a an ae ip ua st newID now =
         .error .maxDepthExceeded) := by
  constructor
  · intro c st' h
    rcases createComment_ok_inv cfg settings req a an ae ip ua st newID now c st' h
      with ⟨hp, heq⟩ | ⟨pid, parent, hne, hpid, hparent, hrep, hdepth, heq⟩
    · have hc : c = (createCommentFinish cfg settings req a an ae ip ua st newID
          now none none 0).1 := congrArg Prod.fst heq
      constructor
      · intro _
        rw [hc]
        exact ⟨rfl, rfl⟩
      · intro pid parent hpid _
        rw [hp] at hpid
        have hnone : objectIDFromHex "" = none := by decide
        rw [hnone] at hpid
        cases hpid
    · have hc : c = (createCommentFinish cfg settings req a an ae ip ua st newID
          now (some pid)
          (match parent.rootID with
           | some r => some r
           | none => some pid)
          (parent.depth + 1)).1 := congrArg Prod.fst heq
      constructor
      · intro hp
        exact absurd hp hne
      · intro pid' parent' hpid' hparent'
        rw [hpid] at hpid'
        injection hpid' with hpe
        subst hpe
        rw [hparent] at hparent'
        injection hparent' with hpa
        subst hpa
        rw [hc]
        refine ⟨rfl, ?_⟩
        show (match parent.rootID with
              | some r => some r
              | none => some pid) = some (parent.rootID.getD pid)
        cases parent.rootID <;> rfl
  · intro pid parent henabled hanon hlen hp hpid hparent hreplies hdepth
    have hlen' : ¬((req.content.length : Int) > settings.maxCommentLength) :=
      not_lt.mpr hlen
    simp [createComment, henabled, hanon, hlen', hp, hpid, hparent, hreplies,
      hdepth]

/-- C2 witness: a reply under a parent at depth 2 with root hexB gets depth 3
and inherits the root; a reply that would reach depth 1 against MaxReplyDepth 0
(with content inside the length limit) fails with maxDepthExceeded. -/
theorem C2_create_threading_depth_witness :
    createComment offCfg defaultSettings c2wReq "u1" "User" "e" "ip" "ua"
      [c2wParent] hexC 3 = .ok (c2wRes.1, c2wRes.2) ∧
    (c2wRes.1.depth = c2wParent.depth + 1 ∧
     c2wRes.1.rootID = some (c2wParent.rootID.getD hexA)) ∧
    createComment offCfg c2Settings c2dReq "u1" "User" "e" "ip" "ua" [c2Parent]
      hexC 9 = .error .maxDepthExceeded :=
  ⟨by decide,
   ((C2_create_threading_depth offCfg defaultSettings c2wReq "u1" "User" "e"
      "ip" "ua" [c2wParent] hexC 3).1 c2wRes.1 c2wRes.2 (by decide)).2 hexA
      c2wParent (by decide) (by decide),
   (C2_create_threading_depth offCfg c2Settings c2dReq "u1" "User" "e" "ip" "ua"
      [c2Parent] hexC 9).2 hexA c2Parent (by decide) (by decide) (by decide)
      (by decide) (by decide) (by decide) (by decide) (by decide)⟩

/-- C3: a non-admin ListComments call with no explicit status filter returns
only approved comments; an admin call with no status filter applies no status
restriction — remapping every stored comment's status arbitrarily changes
neither the total nor which documents are returned. -/
theorem C3_list_status_visibility (st : CommentStore) (req : ListCommentsRequest) :
    (req.status = "" →
      ∀ c ∈ (listComments st req false).comments, c.status = StatusApproved) ∧
    (req.status = "" → ∀ g : String → String,
      (listComments (st.map (fun c => { c with status := g c.status })) req
          true).total = (listComments st req true).total ∧
      (listComments (st.map (fun c => { c with status := g c.status })) req
          true).comments =
        (listComments st req true).comments.map
          (fun c => { c with status := g c.status })) := by
  constructor
  · intro hstat c hc
    rw [listComments_comments, if_pos ⟨rfl, hstat⟩] at hc
    have hf := mem_repoList _ _ _ hc
    simp only [listFilter, Bool.and_eq_true, Bool.or_eq_true, beq_iff_eq] at hf
    have hs := hf.1.1.1.2
    rcases hs with hs | hs
    · exact absurd hs (by decide)
    · exact hs
  · intro hstat g
    have hb := repoList_status_blind st req hstat g
    constructor
    · rw [listComments_total, listComments_total, if_neg (by simp)]
      exact hb.2
    · rw [listComments_comments, listComments_comments, if_neg (by simp)]
      exact hb.1

/-- C3 witness: with one approved and one pending root comment, the approved
one is returned to a non-admin and is indeed approved; for an admin, remapping
every status leaves the total unchanged. -/
theorem C3_list_status_visibility_witness :
    c3ApprovedC ∈ (listComments c3Store defaultListReq false).comments ∧
    c3ApprovedC.status = StatusApproved ∧
    (listComments (c3Store.map (fun c => { c with status := "x" })) defaultListReq
        true).total = (listComments c3Store defaultListReq true).total :=
  ⟨by decide,
   (C3_list_status_visibility c3Store defaultListReq).1 rfl c3ApprovedC
     (by decide),
   ((C3_list_status_visibility c3Store defaultListReq).2 rfl (fun _ => "x")).1⟩

/-- C5: every successful UpdateComment appends exactly one edit-history entry
holding the pre-update content together with the editor and timestamp, sets
the isEdited flag, and installs the new content. -/
theorem C5_update_appends_edit_history (cfg : ModerationConfig)
    (settings : CommentSettings) (id : String) (req : UpdateCommentRequest)
    (userID : String) (isAdmin : Bool) (st : CommentStore) (now : Nat)
    (oid : ObjectID) (comment : Comment) (res : Comment × CommentStore)
    (h1 : objectIDFromHex id = some oid)
    (h2 : getByID st oid = some comment)
    (h3 : updateComment cfg settings id req userID isAdmin st now = .ok res) :
    res.1.editHistory = comment.editHistory ++
      [{ content := comment.content, editedAt := now, editedBy := userID }] ∧
    res.1.isEdited = true ∧
    res.1.content = req.content := by
  unfold updateComment at h3
  simp only [h1, h2] at h3
  split_ifs at h3 with ha hb hc hd
  · simp only [repoUpdate, Except.ok.injEq] at h3
    subst h3
    simp
  · simp only [repoUpdate, Except.ok.injEq] at h3
    subst h3
    simp

/-- C5 witness: the author updates their own comment; the single appended
history entry carries the prior content, the editor and the timestamp. -/
theorem C5_update_appends_edit_history_witness :
    updateComment offCfg defaultSettings hexA c5UReq "u1" false [c5Comment] 7 =
      .ok (c5Res.1, c5Res.2) ∧
    (c5Res.1.editHistory = c5Comment.editHistory ++
      [{ content := c5Comment.content, editedAt := 7, editedBy := "u1" }] ∧
     c5Res.1.isEdited = true ∧
     c5Res.1.content = c5UReq.content) :=
  ⟨by decide,
   C5_update_appends_edit_history offCfg defaultSettings hexA c5UReq "u1" false
     [c5Comment] 7 hexA c5Comment (c5Res.1, c5Res.2) (by decide) (by decide)
     (by decide)⟩

/-- C6: a successful DeleteComment keeps every record (same store length), marks
the target comment deleted with deletedBy and deletedAt while preserving its
ID, decrements the parent's reply count by exactly 1 when the deleted comment
has a parent, and leaves every other comment's reply count unchanged; deleting
a root comment changes no reply count at all. -/
theorem C6_soft_delete_effects (id userID : String) (isAdmin : Bool)
    (st : CommentStore) (now : Nat) :
    ∀ oid comment st',
      objectIDFromHex id = some oid →
      getByID st oid = some comment →
      deleteComment id userID isAdmin st now = .ok st' →
      st'.length = st.length ∧
      (∀ i (hi : i < st.length) (hi' : i < st'.length),
        ((st[i].id = oid →
          st'[i].isDeleted = true ∧
          st'[i].deletedBy = userID ∧
          st'[i].deletedAt = some now ∧
          st'[i].id = st[i].id) ∧
        (comment.parentID = none →
          st'[i].replyCount = st[i].replyCount) ∧
        (∀ pid, comment.parentID = some pid →
          (st[i].id = pid → st'[i].replyCount = st[i].replyCount - 1) ∧
          (st[i].id ≠ pid → st'[i].replyCount = st[i].replyCount)))) := by
  intro oid comment st' h1 h2 h3
  cases hpar : comment.parentID with
  | none =>
    have hst := deleteComment_ok_inv_root id userID isAdmin st now oid comment
      st' h1 h2 hpar h3
    subst hst
    refine ⟨by simp [softDelete], ?_⟩
    intro i hi hi'
    refine ⟨?_, ?_, ?_⟩
    · intro hio
      simp only [softDelete, softDeleteF, List.getElem_map]
      rw [if_pos hio]
      exact ⟨rfl, rfl, rfl, rfl⟩
    · intro _
      simp only [softDelete, softDeleteF, List.getElem_map]
      split <;> rfl
    · intro pid hpid
      cases hpid
  | some pid =>
    have hst := deleteComment_ok_inv_reply id userID isAdmin st now oid comment
      pid st' h1 h2 hpar h3
    subst hst
    refine ⟨by simp [softDelete, incrementReplyCount], ?_⟩
    intro i hi hi'
    refine ⟨?_, ?_, ?_⟩
    · intro hio
      simp only [incrementReplyCount, incReplyCountF, softDelete, softDeleteF,
        List.getElem_map]
      rw [if_pos hio]
      split <;> exact ⟨rfl, rfl, rfl, rfl⟩
    · intro hc
      cases hc
    · intro pid' hpid'
      injection hpid' with hpe
      subst hpe
      constructor
      · intro hip
        simp only [incrementReplyCount, incReplyCountF, softDelete, softDeleteF,
          List.getElem_map]
        by_cases hio : st[i].id = oid
        · rw [if_pos hio, if_pos (show _ = pid from hip)]
          show st[i].replyCount + -1 = st[i].replyCount - 1
          omega
        · rw [if_neg hio, if_pos hip]
          show st[i].replyCount + -1 = st[i].replyCount - 1
          omega
      · intro hip
        simp only [incrementReplyCount, incReplyCountF, softDelete, softDeleteF,
          List.getElem_map]
        by_cases hio : st[i].id = oid
        · rw [if_pos hio, if_neg (show ¬(_ = pid) from hip)]
        · rw [if_neg hio, if_neg hip]

/-- C6 witness: the author soft-deletes their reply; the store keeps both
records. -/
theorem C6_soft_delete_effects_witness :
    deleteComment hexB "u1" false [c6Parent, c6Child] 11 = .ok c6Res ∧
    c6Res.length = ([c6Parent, c6Child] : List Comment).length :=
  ⟨by decide,
   (C6_soft_delete_effects hexB "u1" false [c6Parent, c6Child] 11 hexB c6Child
     c6Res (by decide) (by decide) (by decide)).1⟩

/-- C7 (amended): every successful ModerateComment sets the status to the
requested status, moderatedBy to the moderator and moderatedAt to the
moderation time; the request's rejection reason is stored only when the new
status is rejected, while a comment moderated to approved or spam retains
whatever rejection reason it already carried (the field is not cleared). -/
theorem C7_moderate_sets_fields (id : String) (req : ModerateCommentRequest)
    (moderatorID : String) (st : CommentStore) (now : Nat) (oid : ObjectID)
    (comment : Comment) (res : Comment × CommentStore)
    (h1 : objectIDFromHex id = some oid)
    (h2 : getByID st oid = some comment)
    (h3 : moderateComment id req moderatorID st now = .ok res) :
    res.1.status = req.status ∧
    res.1.moderatedBy = moderatorID ∧
    res.1.moderatedAt = some now ∧
    res.1.rejectionReason =
      (if req.status = StatusRejected then req.rejectionReason
       else comment.rejectionReason) := by
  unfold moderateComment at h3
  simp only [h1, h2] at h3
  split_ifs at h3 with ha
  · simp only [repoUpdate, Except.ok.injEq] at h3
    subst h3
    simp [ha]
  · simp only [repoUpdate, Except.ok.injEq] at h3
    subst h3
    simp [ha]

/-- C7 witness: moderating to rejected stores the requested reason along with
the moderator and timestamp. -/
theorem C7_moderate_sets_fields_witness :
    moderateComment hexA c7wReq "mod1" [c7Comment] 50 = .ok (c7wRes.1, c7wRes.2) ∧
    (c7wRes.1.status = c7wReq.status ∧
     c7wRes.1.moderatedBy = "mod1" ∧
     c7wRes.1.moderatedAt = some 50 ∧
     c7wRes.1.rejectionReason =
       (if c7wReq.status = StatusRejected then c7wReq.rejectionReason
        else c7Comment.rejectionReason)) :=
  ⟨by decide,
   C7_moderate_sets_fields hexA c7wReq "mod1" [c7Comment] 50 hexA c7Comment
     (c7wRes.1, c7wRes.2) (by decide) (by decide) (by decide)⟩

/-- C8: the bad-word scan returns exactly the union of the global-list matches
and the custom-list matches, deduplicated case-insensitively: every reported
word is one of the raw matches, every raw match is represented up to case
folding, no two reported words share a case folding, each reported word is the
first raw match with its folding (first-seen casing), and a disabled or empty
global configuration contributes no global matches. -/
theorem C8_bad_word_scan_union_dedup (cfg : ModerationConfig) (content : String)
    (customBadWords : List String) :
    (∀ w, w ∈ checkBadWords cfg content customBadWords →
       w ∈ globalMatches cfg content ++ customMatches customBadWords content) ∧
    (∀ m, m ∈ globalMatches cfg content ++ customMatches customBadWords content →
       ∃ w ∈ checkBadWords cfg content customBadWords,
         toLowerStr w = toLowerStr m) ∧
    (checkBadWords cfg content customBadWords).Pairwise
      (fun a b => toLowerStr a ≠ toLowerStr b) ∧
    (∀ w, w ∈ checkBadWords cfg content customBadWords →
       (globalMatches cfg content ++ customMatches customBadWords content).find?
         (fun m => toLowerStr m == toLowerStr w) = some w) ∧
    ((cfg.badWordsEnabled = false ∨ cfg.badWordsList = []) →
       ∀ w, w ∈ checkBadWords cfg content customBadWords →
         w ∈ customMatches customBadWords content) := by
  have hdef : checkBadWords cfg content customBadWords =
      dedupAux [] (globalMatches cfg content ++
        customMatches customBadWords content) := rfl
  refine ⟨?_, ?_, ?_, ?_, ?_⟩
  · intro w hw
    rw [hdef] at hw
    exact mem_of_mem_dedupAux _ _ _ hw
  · intro m hm
    rw [hdef]
    exact dedupAux_complete _ _ _ hm (by simp)
  · rw [hdef]
    exact dedupAux_pairwise _ _
  · intro w hw
    rw [hdef] at hw
    exact dedupAux_first _ _ _ hw
  · intro hoff w hw
    have hg : globalMatches cfg content = [] := by
      rcases hoff with h | h
      · simp [globalMatches, badWordsRegex, h]
      · simp [globalMatches, badWordsRegex, h]
    rw [hdef, hg] at hw
    simpa using mem_of_mem_dedupAux _ _ _ hw

/-- C8 witness: with the global word bad and custom word dam, the surface match
Bad is represented in the deduplicated report; with filtering disabled, a
reported word comes from the custom matches. -/
theorem C8_bad_word_scan_union_dedup_witness :
    ("Bad" ∈ globalMatches c1Cfg "bad Bad dam" ++
      customMatches ["dam"] "bad Bad dam") ∧
    (∃ w ∈ checkBadWords c1Cfg "bad Bad dam" ["dam"],
      toLowerStr w = toLowerStr "Bad") ∧
    offCfg.badWordsEnabled = false ∧
    ("dam" ∈ checkBadWords offCfg "bad dam" ["dam"]) ∧
    ("dam" ∈ customMatches ["dam"] "bad dam") :=
  ⟨by decide,
   (C8_bad_word_scan_union_dedup c1Cfg "bad Bad dam" ["dam"]).2.1 "Bad"
     (by decide),
   rfl,
   by decide,
   (C8_bad_word_scan_union_dedup offCfg "bad dam" ["dam"]).2.2.2.2 (Or.inl rfl)
     "dam" (by decide)⟩

/-- C9: the per-tenant BadWordsFilter flag is never consulted — two settings
records differing only in that field produce identical CreateComment and
UpdateComment results, including identical flagged words and statuses. -/
theorem C9_badWordsFilter_never_consulted (cfg : ModerationConfig)
    (settings : CommentSettings) (b1 b2 : Bool) (req : CreateCommentRequest)
    (a an ae ip ua : String) (st : CommentStore) (newID : ObjectID) (now : Nat)
    (id : String) (ureq : UpdateCommentRequest) (userID : String)
    (isAdmin : Bool) :
    createComment cfg { settings with badWordsFilter := b1 } req a an ae ip ua
        st newID now =
      createComment cfg { settings with badWordsFilter := b2 } req a an ae ip ua
        st newID now ∧
    updateComment cfg { settings with badWordsFilter := b1 } id ureq userID
        isAdmin st now =
      updateComment cfg { settings with badWordsFilter := b2 } id ureq userID
        isAdmin st now := by
  cases settings
  exact ⟨rfl, rfl⟩

/-- C10: DeleteComment succeeds exactly when the ID parses, the comment exists
and the caller is the author or an admin — soft-deleted state is never checked,
so a repeated soft delete succeeds again and, when the comment has a parent,
decrements that parent's reply count a second time (net minus 2). -/
theorem C10_delete_error_iff (id userID : String) (isAdmin : Bool)
    (st : CommentStore) (now : Nat) :
    ((∃ st', deleteComment id userID isAdmin st now = .ok st') ↔
      (∃ oid comment, objectIDFromHex id = some oid ∧
        getByID st oid = some comment ∧
        (comment.authorID = userID ∨ isAdmin = true))) ∧
    (∀ oid comment st',
      objectIDFromHex id = some oid →
      getByID st oid = some comment →
      deleteComment id userID isAdmin st now = .ok st' →
      (∃ st'', deleteComment id userID isAdmin st' now = .ok st'') ∧
      (∀ pid, comment.parentID = some pid →
        ∀ st'', deleteComment id userID isAdmin st' now = .ok st'' →
          ∀ i (hi : i < st.length) (hi'' : i < st''.length),
            st[i].id = pid → st''[i].replyCount = st[i].replyCount - 2)) := by
  constructor
  · constructor
    · rintro ⟨st', hok⟩
      cases hpid : objectIDFromHex id with
      | none =>
        unfold deleteComment at hok
        simp only [hpid] at hok
        exact Except.noConfusion hok
      | some oid =>
        cases hc : getByID st oid with
        | none =>
          unfold deleteComment at hok
          simp only [hpid, hc] at hok
          exact Except.noConfusion hok
        | some comment =>
          exact ⟨oid, comment, rfl, hc,
            deleteComment_ok_authorized id userID isAdmin st now oid comment st'
              hpid hc hok⟩
    · rintro ⟨oid, comment, h1, h2, h3⟩
      exact ⟨_, deleteComment_ok_of id userID isAdmin st now oid comment h1 h2 h3⟩
  · intro oid comment st' h1 h2 h3
    have hauth := deleteComment_ok_authorized id userID isAdmin st now oid comment
      st' h1 h2 h3
    cases hpar : comment.parentID with
    | none =>
      have hst := deleteComment_ok_inv_root id userID isAdmin st now oid comment
        st' h1 h2 hpar h3
      subst hst
      have hgb : getByID (softDelete st oid userID now) oid =
          some (softDeleteF oid userID now comment) := by
        unfold softDelete
        rw [getByID_map _ (softDeleteF_id oid userID now), h2]
        rfl
      have hauth' : (softDeleteF oid userID now comment).authorID = userID ∨
          isAdmin = true := by
        rw [softDeleteF_authorID]
        exact hauth
      refine ⟨⟨_, deleteComment_ok_of id userID isAdmin _ now oid _ h1 hgb
        hauth'⟩, ?_⟩
      intro pid hpid
      cases hpid
    | some pid =>
      have hst := deleteComment_ok_inv_reply id userID isAdmin st now oid comment
        pid st' h1 h2 hpar h3
      subst hst
      have hgb : getByID (incrementReplyCount (softDelete st oid userID now) pid
          (-1) now) oid =
          some (incReplyCountF pid (-1) now (softDeleteF oid userID now comment)) := by
        unfold incrementReplyCount softDelete
        rw [getByID_map _ (incReplyCountF_id pid (-1) now),
            getByID_map _ (softDeleteF_id oid userID now), h2]
        rfl
      have hauth' : (incReplyCountF pid (-1) now
          (softDeleteF oid userID now comment)).authorID = userID ∨
          isAdmin = true := by
        rw [incReplyCountF_authorID, softDeleteF_authorID]
        exact hauth
      have hpar' : (incReplyCountF pid (-1) now
          (softDeleteF oid userID now comment)).parentID = some pid := by
        rw [incReplyCountF_parentID, softDeleteF_parentID, hpar]
      refine ⟨⟨_, deleteComment_ok_of id userID isAdmin _ now oid _ h1 hgb
        hauth'⟩, ?_⟩
      intro pid' hpid' st'' hok2 i hi hi'' hip
      injection hpid' with hpe
      subst hpe
      have hst2 := deleteComment_ok_inv_reply id userID isAdmin _ now oid _ pid
        st'' h1 hgb hpar' hok2
      subst hst2
      simp only [incrementReplyCount, softDelete, List.getElem_map,
        incReplyCountF_replyCount, softDeleteF_replyCount, incReplyCountF_id,
        softDeleteF_id, hip, if_true]
      omega

/-- C10 witness: the author deletes their reply once, and deleting the already
soft-deleted reply succeeds again. -/
theorem C10_delete_error_iff_witness :
    deleteComment hexB "u1" false [c6Parent, c6Child] 11 = .ok c6Res ∧
    (∃ st'', deleteComment hexB "u1" false c6Res 11 = .ok st'') :=
  ⟨by decide,
   ((C10_delete_error_iff hexB "u1" false [c6Parent, c6Child] 11).2 hexB c6Child
     c6Res (by decide) (by decide) (by decide)).1⟩

end CommentService
